import Mathlib

/- Verification of gluon/contrib/webclient.py (the WebClient scriptable HTTP
   client of web2py) against its natural-language specification.

   The embedding is shallow: Python dicts over string keys become association
   lists with unique keys kept in insertion order, the urllib transport becomes
   a script of responses consumed one per request, and in-place mutation of the
   caller-owned argument dicts is modelled by returning the final contents of
   those dicts in the call outcome. -/

set_option autoImplicit false

namespace Webclient

/-! ## Python dictionaries as insertion-ordered association lists -/

abbrev PyDict (α : Type) : Type := List (String × α)

/-- Membership test for a string key, Python `k in d`. -/
def dmem {α : Type} : PyDict α → String → Bool
  | [], _ => false
  | p :: rest, k => p.1 == k || dmem rest k

/-- Lookup, Python `d[k]` wrapped in Option. -/
def dget? {α : Type} : PyDict α → String → Option α
  | [], _ => none
  | p :: rest, k => if p.1 == k then some p.2 else dget? rest k

/-- Assignment `d[k] = v`: replace the first entry with this key, or append a
    fresh entry, preserving insertion order as a Python dict does. -/
def dset {α : Type} : PyDict α → String → α → PyDict α
  | [], k, v => [(k, v)]
  | p :: rest, k, v => if p.1 == k then (k, v) :: rest else p :: dset rest k v

/-! ## Python string primitives used by the source -/

/-- Whitespace stripped by Python str.strip with no argument (ASCII part). -/
def isPySpace (c : Char) : Bool :=
  c == ' ' || c == '\t' || c == '\n' || c == '\r' || c == '\x0b' || c == '\x0c'

def trimChars (cs : List Char) : List Char :=
  ((cs.dropWhile isPySpace).reverse.dropWhile isPySpace).reverse

/-- Python str.strip(). -/
def pyStrip (s : String) : String := String.mk (trimChars s.toList)

/-- Index of the first occurrence of a character, or -1: Python str.find. -/
def findIdx (cs : List Char) (c : Char) : Int :=
  match cs with
  | [] => -1
  | x :: xs =>
      if x = c then 0
      else
        let r := findIdx xs c
        if r < 0 then -1 else r + 1

def pyFind (s : String) (c : Char) : Int := findIdx s.toList c

/-- Python slice s[:i] where i may be negative, as str.find can return -1. -/
def pySliceTo (s : String) (i : Int) : String :=
  if i < 0 then
    String.mk (s.toList.take (s.toList.length - min s.toList.length (-i).toNat))
  else
    String.mk (s.toList.take i.toNat)

/-- Python slice s[i:] where i may be negative. -/
def pySliceFrom (s : String) (i : Int) : String :=
  if i < 0 then
    String.mk (s.toList.drop (s.toList.length - min s.toList.length (-i).toNat))
  else
    String.mk (s.toList.drop i.toNat)

def hasChar (cs : List Char) (c : Char) : Bool := cs.any (fun x => x == c)

/-- Consume a literal from the front of the character list. -/
def dropLit : List Char → List Char → Option (List Char)
  | [], rest => some rest
  | _ :: _, [] => none
  | l :: ls, c :: cs => if c = l then dropLit ls cs else none

/-- Python str.split(sep) for a non-empty separator: split at every
    non-overlapping occurrence of sep, scanning left to right. Kept structural
    over a fuel bounded by the length; every step consumes at least one
    character, so the fuel suffices on every input. -/
def splitOnF (sep : List Char) : Nat → List Char → List (List Char)
  | 0, cs => [cs]
  | _ + 1, [] => [[]]
  | n + 1, c :: cs =>
      match dropLit sep (c :: cs) with
      | some rest => [] :: splitOnF sep n rest
      | none =>
          match splitOnF sep n cs with
          | [] => [[c]]
          | seg :: more => (c :: seg) :: more

def pySplit (s sep : String) : List String :=
  (splitOnF sep.toList (s.toList.length + 1) s.toList).map String.mk

/-- Python str.startswith. -/
def pyStartsWith (s pre : String) : Bool := (dropLit pre.toList s.toList).isSome

/-- Python substring containment `pat in s` for a non-empty pattern. -/
def strContains (s pat : String) : Bool := (pySplit s pat).length != 1

/-! ## Cookie parsing: WebClient._parse_headers_in_cookies

    for item in self.headers["set-cookie"].split(","):
        cookie = item[: item.find(";")]
        pos = cookie.find("=")
        key = cookie[:pos]
        value = cookie[pos + 1 :]
        self.cookies[key.strip()] = value.strip() -/

def parseCookieItem (item : String) : String × String :=
  let cookie := pySliceTo item (pyFind item ';')
  let pos := pyFind cookie '='
  (pyStrip (pySliceTo cookie pos), pyStrip (pySliceFrom cookie (pos + 1)))

def parse_headers_in_cookies (headers : PyDict String) : PyDict String :=
  match dget? headers "set-cookie" with
  | none => []
  | some v => ((pySplit v ",").map parseCookieItem).foldl (fun m p => dset m p.1 p.2) []

/-! ## Session cookie detection

    SESSION_REGEX = "session_id_(?P<name>.+)" compiled and applied with
    re.match to each cookie name: the name group is the maximal run of
    non-newline characters after the prefix, which must be non-empty. -/

def sessionMatch (s : String) : Option String :=
  if pyStartsWith s "session_id_" then
    let rest := s.toList.drop 11
    let name := rest.takeWhile (fun c => !(c == '\n'))
    if name.isEmpty then none else some (String.mk name)
  else none

/-! ## Form scraping: FORM_REGEX.finditer over the decoded body

    FORM_REGEX matches an optional hidden _formkey input immediately followed
    by a hidden _formname input; the lazy groups capture the shortest non-empty
    newline-free value terminated by the literal quote-space-slash-gt. -/

def KEY_LIT : List Char :=
  ("<input name=\"_formkey\" type=\"hidden\" value=\"").toList

def NAME_LIT : List Char :=
  ("<input name=\"_formname\" type=\"hidden\" value=\"").toList

def CLOSE_LIT : List Char := ("\" />").toList

/-- Lazy match of the formname fragment .+? terminated by CLOSE_LIT: the
    shortest non-empty run of non-newline characters followed by the
    terminator. The formname group is the last element of the pattern, so its
    continuation always succeeds at the first terminator and no backtracking
    past it can occur. -/
def takeValue : List Char → Option (List Char × List Char)
  | [] => none
  | c :: cs =>
      if c = '\n' then none
      else
        match dropLit CLOSE_LIT cs with
        | some rest => some ([c], rest)
        | none =>
            match takeValue cs with
            | some (v, rest) => some (c :: v, rest)
            | none => none

/-- Attempt to match only the mandatory _formname input at this position. -/
def matchNameOnly (cs : List Char) : Option ((String × Option String) × List Char) :=
  match dropLit NAME_LIT cs with
  | some r1 =>
      match takeValue r1 with
      | some (nv, r2) => some ((String.mk nv, none), r2)
      | none => none
  | none => none

/-- Backtracking search for the lazy formkey capture and its continuation: the
    capture grows one non-newline character at a time, and at each length the
    engine first tries the candidate terminator CLOSE_LIT followed by the whole
    continuation (the _formname literal and its value); only if that fails is
    the capture extended, exactly as the regex engine backtracks a lazy group
    whose continuation can fail. Returns the formkey capture, the formname
    capture and the remainder after the full match. -/
def takeKeyThenName : List Char → Option ((List Char × List Char) × List Char)
  | [] => none
  | c :: cs =>
      if c = '\n' then none
      else
        match
          (match dropLit CLOSE_LIT cs with
           | some r2 =>
               match dropLit NAME_LIT r2 with
               | some r3 =>
                   match takeValue r3 with
                   | some (nv, r4) => some (([c], nv), r4)
                   | none => none
               | none => none
           | none => none)
        with
        | some res => some res
        | none =>
            match takeKeyThenName cs with
            | some ((kv, nv), r) => some ((c :: kv, nv), r)
            | none => none

/-- Attempt to match the full pattern at this position: the optional greedy
    _formkey group is tried first with full backtracking of its lazy capture;
    only when that branch fails outright is the bare _formname alternative
    tried, as the regex engine drops an optional group it cannot match. -/
def matchFormAt (cs : List Char) : Option ((String × Option String) × List Char) :=
  match dropLit KEY_LIT cs with
  | some r1 =>
      match takeKeyThenName r1 with
      | some ((kv, nv), rest) => some ((String.mk nv, some (String.mk kv)), rest)
      | none => matchNameOnly cs
  | none => matchNameOnly cs

/-- Left-to-right non-overlapping scan, as re.finditer performs. The fuel is
    the length of the text plus one; every step consumes at least one
    character, so the fuel never runs out on the inputs we feed it. -/
def scanForms : Nat → List Char → List (String × Option String)
  | 0, _ => []
  | _ + 1, [] => []
  | n + 1, c :: cs =>
      match matchFormAt (c :: cs) with
      | some (p, rest) => p :: scanForms n rest
      | none => scanForms n cs

/-- All form-name form-key pairs of the body, folded into a dict exactly as
    the loop `self.forms[match.group("formname")] = match.group("formkey")`. -/
def scrapeForms (s : String) : PyDict (Option String) :=
  (scanForms (s.toList.length + 1) s.toList).foldl (fun m p => dset m p.1 p.2) []

/-! ## Response header normalization

    self.headers[h.lower()] = self.response.headers[h] for each header name,
    where the lookup is the case-insensitive first match of the message. -/

def lowerStr (s : String) : String := String.mk (s.toList.map Char.toLower)

def ciLookup (hs : List (String × String)) (k : String) : Option String :=
  (hs.find? (fun p => lowerStr p.1 == lowerStr k)).map (fun p => p.2)

def normalizeHeaders (hs : List (String × String)) : PyDict String :=
  hs.foldl (fun m p =>
    match ciLookup hs p.1 with
    | some v => dset m (lowerStr p.1) v
    | none => m) []

/-! ## Data model of a call -/

/-- A value stored in the caller-supplied form-data dict: a string, or Python
    None, which the code can inject when a remembered form key is absent. -/
inductive PyVal where
  | vStr (s : String)
  | vNone
deriving DecidableEq, Repr

/-- The data argument of post: a pre-encoded string body or a mapping. -/
inductive PostData where
  | str (s : String)
  | dict (d : PyDict PyVal)
deriving DecidableEq, Repr

/-- A header value: a single string or a sequence expanded into repeated
    header lines. -/
inductive HeaderVal where
  | one (s : String)
  | many (l : List String)
deriving DecidableEq, Repr

/-- The keyword arguments of HTTPBasicAuthHandler.add_password. -/
structure Auth where
  realm : String
  uri : String
  user : String
  passwd : String
deriving DecidableEq, Repr

/-- self.text is raw bytes until a truthy charset decodes it. The byte string
    and its decoding are carried by the same underlying text; codec validity
    and byte-level decodability are the standard library concern and are
    modelled as always succeeding for a declared, non-empty codec name. -/
inductive TextVal where
  | bytes (b : String)
  | text (s : String)
deriving DecidableEq, Repr

/-- One HTTP response as urllib presents it: status code, body, the charset
    parameter declared in the content type (if any), and raw headers. -/
structure HTTPResponse where
  code : Nat
  body : String
  charsetParam : Option String
  headers : List (String × String)
deriving DecidableEq, Repr

/-- One transport outcome for one request: a 2xx-3xx response, an HTTPError
    carrying an error response (caught and inspected by post), or any other
    transport exception, which post does not catch. -/
inductive NetResult where
  | ok (r : HTTPResponse) (elapsed : Nat)
  | httpError (r : HTTPResponse) (elapsed : Nat)
  | failure
deriving DecidableEq, Repr

/-- The error kinds a call can raise. -/
inductive Err where
  | httpStatus (code : Nat)
  | applicationFault (msg : String)
  | decodeError
  | transport
deriving DecidableEq, Repr

/-- The mutable state of a WebClient instance, including the per-call scratch
    fields; the scratch fields start with inert placeholder values since the
    Python attributes do not exist before the first call. -/
structure WebClientState where
  app : String
  postbacks : Bool
  forms : PyDict (Option String)
  history : List (String × String × Option Nat × Nat)
  cookies : PyDict String
  default_headers : PyDict HeaderVal
  sessions : PyDict String
  session_regex : Bool
  headers : PyDict String
  url : String
  method : String
  status : Option Nat
  text : TextVal
  time : Nat
deriving DecidableEq, Repr

def DEFAULT_HEADERS : PyDict HeaderVal :=
  [("user-agent", HeaderVal.one "Mozilla/4.0"),
   ("accept-language", HeaderVal.one "en")]

/-- WebClient.__init__ with the default postbacks, headers and session regex
    arguments made explicit. -/
def WebClient (app : String) (postbacks : Bool) (default_headers : PyDict HeaderVal)
    (session_regex : Bool) : WebClientState :=
  { app := app, postbacks := postbacks, forms := [], history := [], cookies := [],
    default_headers := default_headers, sessions := [], session_regex := session_regex,
    headers := [], url := "", method := "", status := none,
    text := TextVal.bytes "", time := 0 }

/-! ## The request orchestration: WebClient.post -/

/-- Python truthiness of the data argument. -/
def dataTruthy : Option PostData → Bool
  | none => false
  | some (PostData.str s) => s != ""
  | some (PostData.dict d) => !d.isEmpty

/-- The Python expression `"_formname" in data`: a key test when data is a
    dict, a substring test when data is a str. -/
def dataHasFormname : Option PostData → Bool
  | none => false
  | some (PostData.str s) => strContains s "_formname"
  | some (PostData.dict d) => dmem d "_formname"

/-- The guard of the postback-priming block:
    data and "_formname" in data and self.postbacks and self.history and
    self.history[-1][1] != self.url. -/
def primingCond (st : WebClientState) (url : String) (data : Option PostData) : Bool :=
  dataTruthy data && dataHasFormname data && st.postbacks &&
    (match st.history.getLast? with
     | some entry => entry.2.1 != st.app ++ url
     | none => false)

def pyOfFormkey : Option String → PyVal
  | some s => PyVal.vStr s
  | none => PyVal.vNone

def firstFormName (forms : PyDict (Option String)) : String :=
  match forms with
  | [] => ""
  | p :: _ => p.1

/-- The _formname and _formkey injection performed on a dict body:
    if not "_formname" in data and len(self.forms) == 1:
        data["_formname"] = next(iter(self.forms.keys()))
    if "_formname" in data and not "_formkey" in data
            and data["_formname"] in self.forms:
        data["_formkey"] = self.forms[data["_formname"]] -/
def injectForm (forms : PyDict (Option String)) (d : PyDict PyVal) : PyDict PyVal :=
  let d1 :=
    if !(dmem d "_formname") && (forms.length == 1) then
      dset d "_formname" (PyVal.vStr (firstFormName forms))
    else d
  match dget? d1 "_formname" with
  | some (PyVal.vStr n) =>
      if !(dmem d1 "_formkey") then
        match dget? forms n with
        | some k => dset d1 "_formkey" (pyOfFormkey k)
        | none => d1
      else d1
  | _ => d1

/-- Python truthiness of the charset argument: None and the empty string are
    falsy. -/
def optTruthy : Option String → Bool
  | some c => c != ""
  | none => false

/-- The charset actually used for decoding: the literal argument, or the
    declared response charset when the argument is the string auto. -/
def resolveCharset (charset : Option String) (r : HTTPResponse) : Option String :=
  match charset with
  | none => none
  | some c => if c == "auto" then r.charsetParam else some c

/-- One step of the session-churn loop over the freshly parsed cookie map.
    The printed diagnostic is recorded; sessions[name] is then updated. -/
def sessStep (acc : PyDict String × List String) (p : String × String) :
    PyDict String × List String :=
  match sessionMatch p.1 with
  | none => acc
  | some name =>
      let msgs :=
        if dmem acc.1 name && (dget? acc.1 name != some p.2) then
          acc.2 ++ ["Changed session ID " ++ name]
        else acc.2
      (dset acc.1 name p.2, msgs)

def sessionUpdate (enabled : Bool) (sessions : PyDict String)
    (cookies : PyDict String) : PyDict String × List String :=
  if enabled then cookies.foldl sessStep (sessions, []) else (sessions, [])

/-- The response-processing tail of post, from reading the status code to the
    history append. isError is true when urllib raised HTTPError for this
    response. Returns the updated state, the raised error if any, and the
    session-rotation diagnostics printed. -/
def handleResponse (st0 : WebClientState) (charset : Option String) (r : HTTPResponse)
    (isError : Bool) (elapsed : Nat) : WebClientState × Option Err × List String :=
  let st1 := { st0 with time := elapsed, status := some r.code,
                        text := TextVal.bytes r.body }
  let ce := resolveCharset charset r
  if optTruthy charset && !(optTruthy ce) then
    (st1, some Err.decodeError, [])
  else
    let st2 := if optTruthy charset then { st1 with text := TextVal.text r.body } else st1
    let st3 := { st2 with headers := normalizeHeaders r.headers }
    if isError then
      match dget? st3.headers "web2py_error" with
      | some msg => (st3, some (Err.applicationFault msg), [])
      | none => (st3, some (Err.httpStatus r.code), [])
    else
      let st4 := { st3 with cookies := parse_headers_in_cookies st3.headers }
      let su := sessionUpdate st4.session_regex st4.sessions st4.cookies
      let st5 := { st4 with sessions := su.1 }
      let st6 := if optTruthy ce then { st5 with forms := scrapeForms r.body } else st5
      let st7 := { st6 with
        history := st6.history ++ [(st6.method, st6.url, st6.status, elapsed)] }
      (st7, none, su.2)

/-- The outcome of one post or get call: the client state after the call, the
    raised error if any, the diagnostics printed, the final contents of the
    caller-owned data dict and of a caller-supplied truthy headers dict, the
    auth credentials installed on the opener, the header lines added to the
    request, and the unconsumed remainder of the transport script. -/
structure PostOutcome where
  st : WebClientState
  err : Option Err
  printed : List String
  dataAfter : Option (PyDict PyVal)
  headersAfter : Option (PyDict HeaderVal)
  authUsed : Option Auth
  requestHeaders : List (String × String)
  netRest : List NetResult
deriving DecidableEq, Repr

/-- GET or POST according to the data argument when method is auto. -/
def pyMethod (data : Option PostData) (method : String) : String :=
  match data with
  | some _ => if method == "auto" then "POST" else method
  | none => if method == "auto" then "GET" else method

/-- The merge of the default headers under the caller headers: missing keys
    are appended in default order, caller values win. -/
def mergeDefaults (defaults : PyDict HeaderVal) (headers : PyDict HeaderVal) :
    PyDict HeaderVal :=
  defaults.foldl (fun h p => if dmem h p.1 then h else h ++ [p]) headers

/-- Expansion of the merged header dict into (key, value) lines, sequences
    becoming repeated lines. -/
def headerLines (h : PyDict HeaderVal) : List (String × String) :=
  h.foldl (fun l p =>
    match p.2 with
    | HeaderVal.one s => l ++ [(p.1, s)]
    | HeaderVal.many vs => l ++ vs.map (fun s => (p.1, s))) []

/-- Final contents of the caller data dict: the injected mapping when data was
    a dict, since post mutates that dict in place before urlencoding it. -/
def pmDataAfter (st0 : WebClientState) (data : Option PostData) :
    Option (PyDict PyVal) :=
  match data with
  | some (PostData.dict d) => some (injectForm st0.forms d)
  | _ => none

/-- Final contents of a caller-supplied headers dict: `headers or {}` replaces
    a falsy dict by a fresh one, so only a non-empty caller dict is mutated by
    the default-header merge. -/
def pmHeadersAfter (defaults : PyDict HeaderVal) (headers : Option (PyDict HeaderVal)) :
    Option (PyDict HeaderVal) :=
  match headers with
  | some h => if h.isEmpty then some h else some (mergeDefaults defaults h)
  | none => none

/-- The header lines added to the opener: merged headers then one Cookie line
    per recycled or supplied cookie. -/
def pmReqHeaders (st0 : WebClientState) (cookies : Option (PyDict String))
    (headers : Option (PyDict HeaderVal)) : List (String × String) :=
  let cookiesEff : PyDict String :=
    match cookies with
    | none => st0.cookies
    | some c => c
  headerLines (mergeDefaults st0.default_headers
      (match headers with | some h => h | none => [])) ++
    cookiesEff.map (fun p => ("Cookie", p.1 ++ "=" ++ p.2))

/-- The body of WebClient.post without the postback-priming block, which is
    split into the wrapper `post` below; net is the script of transport
    outcomes, consumed one entry per issued request. An empty script stands
    for an unreachable transport fault. -/
def post_main (st0 : WebClientState) (url : String) (data : Option PostData)
    (cookies : Option (PyDict String)) (headers : Option (PyDict HeaderVal))
    (auth : Option Auth) (method : String) (charset : Option String)
    (net : List NetResult) : PostOutcome :=
  let stB := { st0 with url := st0.app ++ url, method := pyMethod data method }
  match net with
  | [] =>
      { st := stB, err := some Err.transport, printed := [],
        dataAfter := pmDataAfter st0 data,
        headersAfter := pmHeadersAfter st0.default_headers headers,
        authUsed := auth, requestHeaders := pmReqHeaders st0 cookies headers,
        netRest := [] }
  | NetResult.failure :: rest =>
      { st := stB, err := some Err.transport, printed := [],
        dataAfter := pmDataAfter st0 data,
        headersAfter := pmHeadersAfter st0.default_headers headers,
        authUsed := auth, requestHeaders := pmReqHeaders st0 cookies headers,
        netRest := rest }
  | NetResult.ok r e :: rest =>
      let h := handleResponse stB charset r false e
      { st := h.1, err := h.2.1, printed := h.2.2,
        dataAfter := pmDataAfter st0 data,
        headersAfter := pmHeadersAfter st0.default_headers headers,
        authUsed := auth, requestHeaders := pmReqHeaders st0 cookies headers,
        netRest := rest }
  | NetResult.httpError r e :: rest =>
      let h := handleResponse stB charset r true e
      { st := h.1, err := h.2.1, printed := h.2.2,
        dataAfter := pmDataAfter st0 data,
        headersAfter := pmHeadersAfter st0.default_headers headers,
        authUsed := auth, requestHeaders := pmReqHeaders st0 cookies headers,
        netRest := rest }

/-- WebClient.get: returns self.post(url, data=None, cookies=cookies,
    headers=headers, method="GET"). The auth argument is accepted but not
    forwarded. With data=None the postback-priming guard of post is false, so
    the call is exactly post_main. -/
def get (st : WebClientState) (url : String) (cookies : Option (PyDict String))
    (headers : Option (PyDict HeaderVal)) (auth : Option Auth)
    (net : List NetResult) : PostOutcome :=
  post_main st url none cookies headers none "GET" (some "utf-8") net

/-- WebClient.post. When the priming guard holds, a plain GET to the same url
    with the same cookies and headers runs first; an exception from it aborts
    the outer call, whose caller-owned data dict is then still untouched. On
    success the outer request resumes on the state the priming GET left. -/
def post (st : WebClientState) (url : String) (data : Option PostData)
    (cookies : Option (PyDict String)) (headers : Option (PyDict HeaderVal))
    (auth : Option Auth) (method : String) (charset : Option String)
    (net : List NetResult) : PostOutcome :=
  if primingCond st url data then
    let o1 := get st url cookies headers auth net
    match o1.err with
    | some _ =>
        { o1 with dataAfter :=
            (match data with
             | some (PostData.dict d) => some d
             | _ => none) }
    | none =>
        let o2 := post_main o1.st url data cookies headers auth method charset o1.netRest
        { o2 with printed := o1.printed ++ o2.printed }
  else
    post_main st url data cookies headers auth method charset net

/-! ## Claim-side definitions

    These two definitions transcribe the words of the claims, not the code;
    they exist to be compared against the code-derived definitions above. -/

/-- The priming trigger exactly as claim C1 words it: the data argument is a
    mapping containing a _formname key, postbacks are enabled, history is
    non-empty, and the previous request URL differs from baseUrl ++ url. -/
def claimC1Cond (st : WebClientState) (url : String) (data : Option PostData) : Bool :=
  (match data with
   | some (PostData.dict d) => dmem d "_formname"
   | _ => false) && st.postbacks &&
  (match st.history.getLast? with
   | some entry => entry.2.1 != st.app ++ url
   | none => false)

/-- The per-item cookie rule as claim C2 words it: only the prefix of the item
    up to the first semicolon (the whole item when it has none), split at the
    first equals sign into name and value, both trimmed. -/
def claimC2Item (item : String) : String × String :=
  let seg := String.mk (item.toList.takeWhile (fun c => !(c == ';')))
  let name := String.mk (seg.toList.takeWhile (fun c => !(c == '=')))
  let value := String.mk ((seg.toList.dropWhile (fun c => !(c == '='))).drop 1)
  (pyStrip name, pyStrip value)

def claimC2Parse (headers : PyDict String) : PyDict String :=
  match dget? headers "set-cookie" with
  | none => []
  | some v => ((pySplit v ",").map claimC2Item).foldl (fun m p => dset m p.1 p.2) []

/-- The per-item cookie rule amended to what the code computes: for an item
    containing a semicolon, the prefix before the first one; for an item with
    none, the item with its final character removed, because str.find returns
    -1 and the slice item[:-1] drops the last character. The equals split has
    the same convention: part before the first equals sign as the key and the
    part after it as the value, and, when no equals sign occurs, the segment
    minus its final character as the key and the whole segment as the value.
    Both parts are trimmed. -/
def amendedCookieItem (item : String) : String × String :=
  let cookie :=
    if hasChar item.toList ';' then
      String.mk (item.toList.takeWhile (fun x => !(x == ';')))
    else String.mk item.toList.dropLast
  let key :=
    if hasChar cookie.toList '=' then
      String.mk (cookie.toList.takeWhile (fun x => !(x == '=')))
    else String.mk cookie.toList.dropLast
  let value :=
    if hasChar cookie.toList '=' then
      String.mk ((cookie.toList.dropWhile (fun x => !(x == '='))).drop 1)
    else cookie
  (pyStrip key, pyStrip value)

def amendedParse (headers : PyDict String) : PyDict String :=
  match dget? headers "set-cookie" with
  | none => []
  | some v => ((pySplit v ",").map amendedCookieItem).foldl (fun m p => dset m p.1 p.2) []

/-! ## Concrete fixtures used by witnesses and counterexamples -/

def baseClient : WebClientState := WebClient "http://h/" true DEFAULT_HEADERS true

def okResp : HTTPResponse :=
  { code := 200, body := "", charsetParam := none, headers := [] }

def histClient : WebClientState :=
  { baseClient with history := [("GET", "http://h/a", some 200, 0)] }

def faultResp : HTTPResponse :=
  { code := 500, body := "", charsetParam := none,
    headers := [("Web2py_Error", "ticket")] }

def sessClient : WebClientState := { baseClient with sessions := [("abc", "old")] }

def sessResp : HTTPResponse :=
  { code := 200, body := "", charsetParam := none,
    headers := [("Set-Cookie", "session_id_abc=hello;Path=/")] }

def formBody : String :=
  "<input name=\"_formkey\" type=\"hidden\" value=\"K1\" />" ++
    "<input name=\"_formname\" type=\"hidden\" value=\"register\" />"

def formResp : HTTPResponse :=
  { code := 200, body := formBody, charsetParam := none, headers := [] }

def formClient : WebClientState := { baseClient with forms := [("login", some "KK")] }

def plainData : PyDict PyVal := [("email", PyVal.vStr "a")]

def sampleAuth : Auth :=
  { realm := "r", uri := "http://h/", user := "homer", passwd := "test" }

/-! ## Dictionary lemmas -/

theorem dget?_dset_self {α : Type} (d : PyDict α) (k : String) (v : α) :
    dget? (dset d k v) k = some v := by
  induction d with
  | nil => simp [dset, dget?]
  | cons p rest ih =>
      cases h : p.1 == k with
      | true => simp [dset, dget?, h]
      | false => simp [dset, dget?, h, ih]

theorem dget?_dset_ne {α : Type} (d : PyDict α) (k k2 : String) (v : α)
    (h : (k2 == k) = false) : dget? (dset d k2 v) k = dget? d k := by
  induction d with
  | nil => simp [dset, dget?, h]
  | cons p rest ih =>
      cases hp : p.1 == k2 with
      | true =>
          have hpk : (p.1 == k) = false := by
            have := eq_of_beq hp
            subst this
            exact h
          simp [dset, dget?, hp, hpk, h]
      | false => simp [dset, dget?, hp, ih]

theorem dmem_dset_ne {α : Type} (d : PyDict α) (k k2 : String) (v : α)
    (h : (k2 == k) = false) : dmem (dset d k2 v) k = dmem d k := by
  induction d with
  | nil => simp [dset, dmem, h]
  | cons p rest ih =>
      cases hp : p.1 == k2 with
      | true =>
          have hpk : (p.1 == k) = false := by
            have := eq_of_beq hp
            subst this
            exact h
          simp [dset, dmem, hp, hpk, h, ih]
      | false => simp [dset, dmem, hp, ih]

theorem dmem_of_dget? {α : Type} (d : PyDict α) (k : String) (v : α)
    (h : dget? d k = some v) : dmem d k = true := by
  induction d with
  | nil => simp [dget?] at h
  | cons p rest ih =>
      cases hp : p.1 == k with
      | true => simp [dmem, hp]
      | false =>
          simp [dget?, hp] at h
          simp [dmem, hp, ih h]

theorem dget?_eq_none_of_dmem {α : Type} (d : PyDict α) (k : String)
    (h : dmem d k = false) : dget? d k = none := by
  induction d with
  | nil => simp [dget?]
  | cons p rest ih =>
      simp [dmem, Bool.or_eq_false_iff] at h
      simp [dget?, h.1, ih h.2]

theorem dmem_append {α : Type} (a b : PyDict α) (k : String) :
    dmem (a ++ b) k = (dmem a k || dmem b k) := by
  induction a with
  | nil => simp [dmem]
  | cons p rest ih => simp [dmem, ih, Bool.or_assoc]

theorem mergeDefaults_nil (h : PyDict HeaderVal) : mergeDefaults [] h = h := rfl

theorem mergeDefaults_cons (p : String × HeaderVal) (defaults h : PyDict HeaderVal) :
    mergeDefaults (p :: defaults) h =
      mergeDefaults defaults (if dmem h p.1 then h else h ++ [p]) := rfl

theorem dmem_mergeDefaults (defaults : PyDict HeaderVal) :
    ∀ (h : PyDict HeaderVal) (k : String),
      dmem (mergeDefaults defaults h) k = (dmem h k || dmem defaults k) := by
  induction defaults with
  | nil => intro h k; simp [mergeDefaults_nil, dmem]
  | cons p rest ih =>
      intro h k
      rw [mergeDefaults_cons]
      cases hd : dmem h p.1 with
      | true =>
          simp only [if_true, hd, ih]
          cases hk : p.1 == k with
          | true =>
              have := eq_of_beq hk
              subst this
              simp [dmem, hd]
          | false => simp [dmem, hk]
      | false =>
          simp only [if_false, hd, ih, dmem_append]
          simp [dmem_append, dmem, Bool.or_assoc]

/-! ## Python string lemmas -/

theorem mk_toList (s : String) : String.mk s.toList = s := rfl

theorem toList_append (a b : String) : (a ++ b).toList = a.toList ++ b.toList :=
  String.data_append a b

theorem takeWhile_append_all {p : Char → Bool} :
    ∀ (a b : List Char), (∀ x ∈ a, p x = true) →
      (a ++ b).takeWhile p = a ++ b.takeWhile p := by
  intro a
  induction a with
  | nil => intro b _; simp
  | cons x xs ih =>
      intro b hall
      have hx : p x = true := hall x (List.mem_cons_self x xs)
      have hxs : ∀ y ∈ xs, p y = true := fun y hy => hall y (List.mem_cons_of_mem x hy)
      simp [List.takeWhile_cons, hx, ih b hxs]

theorem dropWhile_append_all {p : Char → Bool} :
    ∀ (a b : List Char), (∀ x ∈ a, p x = true) →
      (a ++ b).dropWhile p = b.dropWhile p := by
  intro a
  induction a with
  | nil => intro b _; simp
  | cons x xs ih =>
      intro b hall
      have hx : p x = true := hall x (List.mem_cons_self x xs)
      have hxs : ∀ y ∈ xs, p y = true := fun y hy => hall y (List.mem_cons_of_mem x hy)
      simp [List.dropWhile_cons, hx, ih b hxs]

theorem findIdx_not_has (c : Char) :
    ∀ cs : List Char, hasChar cs c = false → findIdx cs c = -1 := by
  intro cs
  induction cs with
  | nil => intro _; rfl
  | cons x xs ih =>
      intro h
      simp only [hasChar, List.any_cons, Bool.or_eq_false_iff] at h
      have hx : ¬(x = c) := by
        intro he
        rw [he] at h
        simp at h
      have hxs : hasChar xs c = false := h.2
      simp [findIdx, hx, ih hxs]

theorem findIdx_has (c : Char) :
    ∀ cs : List Char, hasChar cs c = true →
      ∃ n : Nat, findIdx cs c = (n : Int) ∧
        cs.takeWhile (fun x => !(x == c)) = cs.take n ∧
        cs.dropWhile (fun x => !(x == c)) = cs.drop n := by
  intro cs
  induction cs with
  | nil => intro h; simp [hasChar] at h
  | cons x xs ih =>
      intro h
      by_cases hx : x = c
      · refine ⟨0, ?_, ?_, ?_⟩
        · simp [findIdx, hx]
        · simp [List.takeWhile_cons, hx]
        · simp [List.dropWhile_cons, hx]
      · have hxs : hasChar xs c = true := by
          simp only [hasChar, List.any_cons, Bool.or_eq_true] at h
          rcases h with h | h
          · exact absurd (eq_of_beq h) hx
          · exact h
        obtain ⟨n, hf, ht, hd⟩ := ih hxs
        refine ⟨n + 1, ?_, ?_, ?_⟩
        · have hnn : ¬((n : Int) < 0) := by omega
          simp [findIdx, hx, hf, hnn]
          try omega
        · simp [List.takeWhile_cons, hx, ht]
        · simp [List.dropWhile_cons, hx, hd]

theorem pySliceTo_find (s : String) (c : Char) :
    pySliceTo s (pyFind s c) =
      (if hasChar s.toList c then
        String.mk (s.toList.takeWhile (fun x => !(x == c)))
       else String.mk s.toList.dropLast) := by
  cases hh : hasChar s.toList c with
  | false =>
      rw [if_neg (by simp [hh])]
      have hf : pyFind s c = -1 := findIdx_not_has c s.toList hh
      rw [hf]
      have harith : s.toList.length - min s.toList.length (Int.toNat (-(-1))) =
          s.toList.length - 1 := by omega
      simp only [pySliceTo, if_pos (by omega : (-1 : Int) < 0), harith]
      rw [← List.dropLast_eq_take]
  | true =>
      rw [if_pos (by simp [hh])]
      obtain ⟨n, hf, ht, _⟩ := findIdx_has c s.toList hh
      rw [show pyFind s c = (n : Int) from hf]
      have hnn : ¬((n : Int) < 0) := by omega
      simp only [pySliceTo, if_neg hnn, Int.toNat_ofNat]
      rw [ht]

theorem pySliceFrom_find_succ (s : String) (c : Char) :
    pySliceFrom s (pyFind s c + 1) =
      (if hasChar s.toList c then
        String.mk ((s.toList.dropWhile (fun x => !(x == c))).drop 1)
       else s) := by
  cases hh : hasChar s.toList c with
  | false =>
      rw [if_neg (by simp [hh])]
      have hf : pyFind s c = -1 := findIdx_not_has c s.toList hh
      rw [hf]
      show pySliceFrom s 0 = s
      simp only [pySliceFrom, if_neg (by omega : ¬((0 : Int) < 0))]
      simp [mk_toList]
  | true =>
      rw [if_pos (by simp [hh])]
      obtain ⟨n, hf, _, hd⟩ := findIdx_has c s.toList hh
      rw [show pyFind s c = (n : Int) from hf]
      have hcast : (n : Int) + 1 = ((n + 1 : Nat) : Int) := by omega
      rw [hcast]
      have hnn : ¬(((n + 1 : Nat) : Int) < 0) := by omega
      simp only [pySliceFrom, if_neg hnn, Int.toNat_ofNat]
      rw [hd, List.drop_drop]

theorem parseCookieItem_eq_amended (item : String) :
    parseCookieItem item = amendedCookieItem item := by
  simp only [parseCookieItem, amendedCookieItem]
  rw [pySliceTo_find item ';']
  rw [pySliceTo_find _ '=', pySliceFrom_find_succ _ '=']

set_option maxRecDepth 100000 in
/-- Regression check of the backtracking of the lazy formkey group: with two
    consecutive formkey inputs before a formname input, the capture extends
    across the first terminator and the second formkey literal, as the regex
    engine produces. -/
theorem scrapeForms_backtracking :
    scrapeForms ("<input name=\"_formkey\" type=\"hidden\" value=\"A\" />" ++
        "<input name=\"_formkey\" type=\"hidden\" value=\"B\" />" ++
        "<input name=\"_formname\" type=\"hidden\" value=\"register\" />") =
      [("register",
        some "A\" /><input name=\"_formkey\" type=\"hidden\" value=\"B")] := by
  decide

set_option maxRecDepth 100000 in
/-- Regression check of a formkey group whose continuation never matches: the
    optional group is dropped and the later bare formname input matches with
    no formkey, as the regex engine produces. -/
theorem scrapeForms_dropped_group :
    scrapeForms ("<input name=\"_formkey\" type=\"hidden\" value=\"A\" />junk" ++
        "<input name=\"_formname\" type=\"hidden\" value=\"register\" />") =
      [("register", none)] := by
  decide

theorem bool_ne_true {b : Bool} (h : b = false) : ¬(b = true) := by
  rw [h]
  simp

theorem string_append_left_cancel {s a b : String} (h : s ++ a = s ++ b) : a = b := by
  have hd : s.data ++ a.data = s.data ++ b.data := by
    have := congrArg String.data h
    rwa [String.data_append, String.data_append] at this
  have hab : a.data = b.data := List.append_cancel_left hd
  cases a
  cases b
  simp at hab
  simp [hab]

/-! ## Structure of a post_main outcome -/

theorem handleResponse_ok_eq (st0 : WebClientState) (charset : Option String)
    (r : HTTPResponse) (e : Nat)
    (hdec : (optTruthy charset && !(optTruthy (resolveCharset charset r))) = false) :
    handleResponse st0 charset r false e =
      ({ st0 with
          time := e,
          status := some r.code,
          text := if optTruthy charset then TextVal.text r.body
                  else TextVal.bytes r.body,
          headers := normalizeHeaders r.headers,
          cookies := parse_headers_in_cookies (normalizeHeaders r.headers),
          sessions := (sessionUpdate st0.session_regex st0.sessions
            (parse_headers_in_cookies (normalizeHeaders r.headers))).1,
          forms := if optTruthy (resolveCharset charset r) then scrapeForms r.body
                   else st0.forms,
          history := st0.history ++ [(st0.method, st0.url, some r.code, e)] },
        none,
        (sessionUpdate st0.session_regex st0.sessions
          (parse_headers_in_cookies (normalizeHeaders r.headers))).2) := by
  cases h1 : optTruthy charset with
  | false =>
      cases h2 : optTruthy (resolveCharset charset r) with
      | false => simp [handleResponse, h1, h2]
      | true => simp [handleResponse, h1, h2]
  | true =>
      cases h2 : optTruthy (resolveCharset charset r) with
      | false => rw [h1, h2] at hdec; simp at hdec
      | true => simp [handleResponse, h1, h2]

theorem post_main_ok_eq (st0 : WebClientState) (url : String) (data : Option PostData)
    (cookies : Option (PyDict String)) (headers : Option (PyDict HeaderVal))
    (auth : Option Auth) (method : String) (charset : Option String)
    (r : HTTPResponse) (e : Nat) (rest : List NetResult)
    (hdec : (optTruthy charset && !(optTruthy (resolveCharset charset r))) = false) :
    post_main st0 url data cookies headers auth method charset
        (NetResult.ok r e :: rest) =
      { st := { st0 with
          url := st0.app ++ url,
          method := pyMethod data method,
          time := e,
          status := some r.code,
          text := if optTruthy charset then TextVal.text r.body
                  else TextVal.bytes r.body,
          headers := normalizeHeaders r.headers,
          cookies := parse_headers_in_cookies (normalizeHeaders r.headers),
          sessions := (sessionUpdate st0.session_regex st0.sessions
            (parse_headers_in_cookies (normalizeHeaders r.headers))).1,
          forms := if optTruthy (resolveCharset charset r) then scrapeForms r.body
                   else st0.forms,
          history := st0.history ++
            [(pyMethod data method, st0.app ++ url, some r.code, e)] },
        err := none,
        printed := (sessionUpdate st0.session_regex st0.sessions
          (parse_headers_in_cookies (normalizeHeaders r.headers))).2,
        dataAfter := pmDataAfter st0 data,
        headersAfter := pmHeadersAfter st0.default_headers headers,
        authUsed := auth,
        requestHeaders := pmReqHeaders st0 cookies headers,
        netRest := rest } := by
  simp only [post_main]
  rw [handleResponse_ok_eq _ _ _ _ hdec]

theorem post_main_dataAfter (st0 : WebClientState) (url : String) (data : Option PostData)
    (cookies : Option (PyDict String)) (headers : Option (PyDict HeaderVal))
    (auth : Option Auth) (method : String) (charset : Option String)
    (net : List NetResult) :
    (post_main st0 url data cookies headers auth method charset net).dataAfter =
      pmDataAfter st0 data := by
  cases net with
  | nil => rfl
  | cons head rest => cases head <;> rfl

theorem post_main_headersAfter (st0 : WebClientState) (url : String)
    (data : Option PostData) (cookies : Option (PyDict String))
    (headers : Option (PyDict HeaderVal)) (auth : Option Auth) (method : String)
    (charset : Option String) (net : List NetResult) :
    (post_main st0 url data cookies headers auth method charset net).headersAfter =
      pmHeadersAfter st0.default_headers headers := by
  cases net with
  | nil => rfl
  | cons head rest => cases head <;> rfl

theorem post_main_authUsed (st0 : WebClientState) (url : String)
    (data : Option PostData) (cookies : Option (PyDict String))
    (headers : Option (PyDict HeaderVal)) (auth : Option Auth) (method : String)
    (charset : Option String) (net : List NetResult) :
    (post_main st0 url data cookies headers auth method charset net).authUsed = auth := by
  cases net with
  | nil => rfl
  | cons head rest => cases head <;> rfl

theorem post_main_decode_fail (st0 : WebClientState) (url : String)
    (data : Option PostData) (cookies : Option (PyDict String))
    (headers : Option (PyDict HeaderVal)) (auth : Option Auth) (method : String)
    (charset : Option String) (r : HTTPResponse) (e : Nat) (rest : List NetResult)
    (hdec : (optTruthy charset && !(optTruthy (resolveCharset charset r))) = true) :
    (post_main st0 url data cookies headers auth method charset
        (NetResult.ok r e :: rest)).err = some Err.decodeError ∧
    (post_main st0 url data cookies headers auth method charset
        (NetResult.httpError r e :: rest)).err = some Err.decodeError := by
  constructor <;> simp [post_main, handleResponse, hdec]

theorem post_main_httpError_err (st0 : WebClientState) (url : String)
    (data : Option PostData) (cookies : Option (PyDict String))
    (headers : Option (PyDict HeaderVal)) (auth : Option Auth) (method : String)
    (charset : Option String) (r : HTTPResponse) (e : Nat) (rest : List NetResult)
    (hdec : (optTruthy charset && !(optTruthy (resolveCharset charset r))) = false) :
    (post_main st0 url data cookies headers auth method charset
        (NetResult.httpError r e :: rest)).err =
      some (match dget? (normalizeHeaders r.headers) "web2py_error" with
            | some m => Err.applicationFault m
            | none => Err.httpStatus r.code) := by
  cases hw : dget? (normalizeHeaders r.headers) "web2py_error" with
  | none => simp [post_main, handleResponse, hdec, hw]
  | some m => simp [post_main, handleResponse, hdec, hw]

theorem post_main_httpError_ne_none (st0 : WebClientState) (url : String)
    (data : Option PostData) (cookies : Option (PyDict String))
    (headers : Option (PyDict HeaderVal)) (auth : Option Auth) (method : String)
    (charset : Option String) (r : HTTPResponse) (e : Nat) (rest : List NetResult) :
    (post_main st0 url data cookies headers auth method charset
        (NetResult.httpError r e :: rest)).err ≠ none := by
  cases hdec : (optTruthy charset && !(optTruthy (resolveCharset charset r))) with
  | true =>
      rw [(post_main_decode_fail st0 url data cookies headers auth method charset
        r e rest hdec).2]
      simp
  | false =>
      rw [post_main_httpError_err st0 url data cookies headers auth method charset
        r e rest hdec]
      simp

theorem post_main_hist_len (st0 : WebClientState) (url : String)
    (data : Option PostData) (cookies : Option (PyDict String))
    (headers : Option (PyDict HeaderVal)) (auth : Option Auth) (method : String)
    (charset : Option String) (net : List NetResult)
    (h : (post_main st0 url data cookies headers auth method charset net).err = none) :
    (post_main st0 url data cookies headers auth method charset net).st.history.length =
      st0.history.length + 1 := by
  cases net with
  | nil => simp [post_main] at h
  | cons head rest =>
      cases head with
      | failure => simp [post_main] at h
      | httpError r e =>
          exact absurd h (post_main_httpError_ne_none st0 url data cookies headers
            auth method charset r e rest)
      | ok r e =>
          cases hdec : (optTruthy charset && !(optTruthy (resolveCharset charset r))) with
          | true =>
              rw [(post_main_decode_fail st0 url data cookies headers auth method
                charset r e rest hdec).1] at h
              simp at h
          | false =>
              rw [post_main_ok_eq st0 url data cookies headers auth method charset
                r e rest hdec]
              simp

theorem post_eq_of_not_priming (st : WebClientState) (url : String)
    (data : Option PostData) (cookies : Option (PyDict String))
    (headers : Option (PyDict HeaderVal)) (auth : Option Auth) (method : String)
    (charset : Option String) (net : List NetResult)
    (hp : primingCond st url data = false) :
    post st url data cookies headers auth method charset net =
      post_main st url data cookies headers auth method charset net := by
  simp [post, hp]

/-! ## Properties of the form-field injection -/

theorem injectForm_formname (forms : PyDict (Option String)) (d : PyDict PyVal)
    (h1 : dmem d "_formname" = false) (h2 : forms.length = 1) :
    dget? (injectForm forms d) "_formname" =
      some (PyVal.vStr (firstFormName forms)) := by
  have hkey : (("_formkey" : String) == "_formname") = false := by decide
  simp only [injectForm, h1, h2, Bool.not_false, beq_self_eq_true, Bool.and_self,
    if_true, dget?_dset_self]
  cases hmk : dmem (dset d "_formname" (PyVal.vStr (firstFormName forms))) "_formkey" with
  | true => simp [hmk, dget?_dset_self]
  | false =>
      cases hf : dget? forms (firstFormName forms) with
      | none => simp [hmk, hf, dget?_dset_self]
      | some k => simp [hmk, hf, dget?_dset_ne _ _ _ _ hkey, dget?_dset_self]

theorem injectForm_formkey (forms : PyDict (Option String)) (d : PyDict PyVal)
    (n : String) (k : Option String)
    (hn : dget? d "_formname" = some (PyVal.vStr n))
    (hk : dmem d "_formkey" = false)
    (hf : dget? forms n = some k) :
    dget? (injectForm forms d) "_formkey" = some (pyOfFormkey k) := by
  have hmem : dmem d "_formname" = true := dmem_of_dget? d "_formname" _ hn
  simp [injectForm, hmem, hn, hk, hf, dget?_dset_self]

theorem injectForm_changes (forms : PyDict (Option String)) (d : PyDict PyVal)
    (h1 : dmem d "_formname" = false) (h2 : forms.length = 1) :
    injectForm forms d ≠ d := by
  intro he
  have hv := injectForm_formname forms d h1 h2
  rw [he, dget?_eq_none_of_dmem d "_formname" h1] at hv
  exact Option.noConfusion hv

/-! ## Properties of the session-churn fold -/

theorem sessFold_stable (nm : String) (v : String) :
    ∀ (cs : List (String × String)) (acc : PyDict String × List String),
      dget? acc.1 nm = some v →
      (∀ p ∈ cs, sessionMatch p.1 = some nm → p.2 = v) →
      dget? (cs.foldl sessStep acc).1 nm = some v ∧
      (cs.foldl sessStep acc).2.count ("Changed session ID " ++ nm) =
        acc.2.count ("Changed session ID " ++ nm) := by
  intro cs
  induction cs with
  | nil => intro acc hacc _; exact ⟨hacc, rfl⟩
  | cons p rest ih =>
      intro acc hacc hall
      have hrest : ∀ q ∈ rest, sessionMatch q.1 = some nm → q.2 = v :=
        fun q hq => hall q (List.mem_cons_of_mem p hq)
      rw [List.foldl_cons]
      cases hm : sessionMatch p.1 with
      | none =>
          have hstep : sessStep acc p = acc := by
            unfold sessStep
            rw [hm]
          rw [hstep]
          exact ih acc hacc hrest
      | some name =>
          have hpair : sessStep acc p =
              (dset acc.1 name p.2,
               if dmem acc.1 name && (dget? acc.1 name != some p.2) then
                 acc.2 ++ ["Changed session ID " ++ name]
               else acc.2) := by
            unfold sessStep
            rw [hm]
          by_cases hnm : name = nm
          · subst hnm
            have hv : p.2 = v := hall p (List.mem_cons_self p rest) hm
            have hstep : sessStep acc p = (dset acc.1 name v, acc.2) := by
              rw [hpair, hv, hacc]
              simp
            rw [hstep]
            exact ih _ (by simp [dget?_dset_self]) hrest
          · have hne : (name == nm) = false := by
              cases hb : name == nm with
              | false => rfl
              | true => exact absurd (eq_of_beq hb) hnm
            have hmsg : ("Changed session ID " ++ name) ≠
                ("Changed session ID " ++ nm) :=
              fun hh => hnm (string_append_left_cancel hh)
            have hlook : dget? (sessStep acc p).1 nm = some v := by
              rw [hpair]
              show dget? (dset acc.1 name p.2) nm = some v
              rw [dget?_dset_ne _ _ _ _ hne]
              exact hacc
            have hcount : (sessStep acc p).2.count ("Changed session ID " ++ nm) =
                acc.2.count ("Changed session ID " ++ nm) := by
              rw [hpair]
              show (if dmem acc.1 name && (dget? acc.1 name != some p.2) then
                      acc.2 ++ ["Changed session ID " ++ name]
                    else acc.2).count ("Changed session ID " ++ nm) =
                acc.2.count ("Changed session ID " ++ nm)
              cases hc : dmem acc.1 name && (dget? acc.1 name != some p.2) with
              | false => rw [if_neg (by simp [hc])]
              | true =>
                  rw [if_pos (by simp [hc]), List.count_append]
                  simp [List.count_singleton, hmsg]
            obtain ⟨ha, hb⟩ := ih (sessStep acc p) hlook hrest
            exact ⟨ha, by rw [hb, hcount]⟩

theorem sessFold_main (nm : String) (v : String) :
    ∀ (cs : List (String × String)) (acc : PyDict String × List String),
      (∃ p ∈ cs, sessionMatch p.1 = some nm) →
      (∀ p ∈ cs, sessionMatch p.1 = some nm → p.2 = v) →
      dget? (cs.foldl sessStep acc).1 nm = some v ∧
      (cs.foldl sessStep acc).2.count ("Changed session ID " ++ nm) =
        acc.2.count ("Changed session ID " ++ nm) +
          (if dmem acc.1 nm && (dget? acc.1 nm != some v) then 1 else 0) := by
  intro cs
  induction cs with
  | nil => intro acc hex _; simp at hex
  | cons p rest ih =>
      intro acc hex hall
      have hrest : ∀ q ∈ rest, sessionMatch q.1 = some nm → q.2 = v :=
        fun q hq => hall q (List.mem_cons_of_mem p hq)
      rw [List.foldl_cons]
      cases hm : sessionMatch p.1 with
      | none =>
          have hstep : sessStep acc p = acc := by
            unfold sessStep
            rw [hm]
          rw [hstep]
          have hex2 : ∃ q ∈ rest, sessionMatch q.1 = some nm := by
            rcases hex with ⟨q, hq, hqm⟩
            rcases List.mem_cons.mp hq with hq1 | hq2
            · rw [hq1] at hqm; rw [hqm] at hm; exact Option.noConfusion hm
            · exact ⟨q, hq2, hqm⟩
          exact ih acc hex2 hrest
      | some name =>
          have hpair : sessStep acc p =
              (dset acc.1 name p.2,
               if dmem acc.1 name && (dget? acc.1 name != some p.2) then
                 acc.2 ++ ["Changed session ID " ++ name]
               else acc.2) := by
            unfold sessStep
            rw [hm]
          by_cases hnm : name = nm
          · subst hnm
            have hv : p.2 = v := hall p (List.mem_cons_self p rest) hm
            rw [hv] at hpair
            rw [hpair]
            have hres := sessFold_stable name v rest
              (dset acc.1 name v,
               if dmem acc.1 name && (dget? acc.1 name != some v) then
                 acc.2 ++ ["Changed session ID " ++ name]
               else acc.2)
              (by simp [dget?_dset_self]) hrest
            refine ⟨hres.1, ?_⟩
            rw [hres.2]
            show (if dmem acc.1 name && (dget? acc.1 name != some v) then
                    acc.2 ++ ["Changed session ID " ++ name]
                  else acc.2).count ("Changed session ID " ++ name) =
              acc.2.count ("Changed session ID " ++ name) +
                (if dmem acc.1 name && (dget? acc.1 name != some v) then 1 else 0)
            cases hc : dmem acc.1 name && (dget? acc.1 name != some v) with
            | false =>
                rw [if_neg (by simp [hc]), if_neg (by simp [hc])]
                simp
            | true =>
                rw [if_pos (by simp [hc]), if_pos (by simp [hc]), List.count_append]
                simp [List.count_singleton]
          · have hne : (name == nm) = false := by
              cases hb : name == nm with
              | false => rfl
              | true => exact absurd (eq_of_beq hb) hnm
            have hmsg : ("Changed session ID " ++ name) ≠
                ("Changed session ID " ++ nm) :=
              fun hh => hnm (string_append_left_cancel hh)
            have hex2 : ∃ q ∈ rest, sessionMatch q.1 = some nm := by
              rcases hex with ⟨q, hq, hqm⟩
              rcases List.mem_cons.mp hq with hq1 | hq2
              · rw [hq1] at hqm; rw [hqm] at hm
                exact absurd (Option.some.inj hm).symm hnm
              · exact ⟨q, hq2, hqm⟩
            have hL : dmem (sessStep acc p).1 nm = dmem acc.1 nm := by
              rw [hpair]
              show dmem (dset acc.1 name p.2) nm = dmem acc.1 nm
              exact dmem_dset_ne _ _ _ _ hne
            have hG : dget? (sessStep acc p).1 nm = dget? acc.1 nm := by
              rw [hpair]
              show dget? (dset acc.1 name p.2) nm = dget? acc.1 nm
              exact dget?_dset_ne _ _ _ _ hne
            have hcount : (sessStep acc p).2.count ("Changed session ID " ++ nm) =
                acc.2.count ("Changed session ID " ++ nm) := by
              rw [hpair]
              show (if dmem acc.1 name && (dget? acc.1 name != some p.2) then
                      acc.2 ++ ["Changed session ID " ++ name]
                    else acc.2).count ("Changed session ID " ++ nm) =
                acc.2.count ("Changed session ID " ++ nm)
              cases hc : dmem acc.1 name && (dget? acc.1 name != some p.2) with
              | false => rw [if_neg (by simp [hc])]
              | true =>
                  rw [if_pos (by simp [hc]), List.count_append]
                  simp [List.count_singleton, hmsg]
            obtain ⟨ha, hb⟩ := ih (sessStep acc p) hex2 hrest
            refine ⟨ha, ?_⟩
            rw [hb, hcount, hL, hG]

/-! ## Claim C1 -/

/-- C1 (amended): the priming GET fires exactly when data is truthy and
    contains _formname (as a key for a mapping, as a substring for a string
    body), postbacks are enabled, history is non-empty and the previous URL
    differs from baseUrl ++ url; a completed call then grows history by
    exactly 2 when the priming GET was triggered, by exactly 1 otherwise. -/
theorem C1_history_growth (st : WebClientState) (url : String) (data : Option PostData)
    (cookies : Option (PyDict String)) (headers : Option (PyDict HeaderVal))
    (auth : Option Auth) (method : String) (charset : Option String)
    (net : List NetResult)
    (hok : (post st url data cookies headers auth method charset net).err = none) :
    (post st url data cookies headers auth method charset net).st.history.length =
      st.history.length + (if primingCond st url data then 2 else 1) := by
  cases hp : primingCond st url data with
  | false =>
      rw [post_eq_of_not_priming _ _ _ _ _ _ _ _ _ hp] at hok ⊢
      show (post_main st url data cookies headers auth method charset
          net).st.history.length = st.history.length + 1
      exact post_main_hist_len _ _ _ _ _ _ _ _ _ hok
  | true =>
      show (post st url data cookies headers auth method charset
          net).st.history.length = st.history.length + 2
      unfold post at hok ⊢
      unfold get at hok ⊢
      rw [hp, if_pos rfl] at hok ⊢
      dsimp only at hok ⊢
      cases he : (post_main st url none cookies headers none "GET" (some "utf-8")
          net).err with
      | some e =>
          rw [he] at hok
          dsimp only at hok
          exact Option.noConfusion hok
      | none =>
          rw [he] at hok
          dsimp only at hok ⊢
          have h2 := post_main_hist_len
            (post_main st url none cookies headers none "GET" (some "utf-8") net).st
            url data cookies headers auth method charset
            (post_main st url none cookies headers none "GET" (some "utf-8") net).netRest
            hok
          have h1 := post_main_hist_len st url none cookies headers none "GET"
            (some "utf-8") net he
          rw [h2, h1]

/-- C1 witness: a plain completed GET on a fresh client grows history from 0
    to 1 and triggers no priming. -/
theorem C1_history_growth_witness :
    (post baseClient "p" none none none none "auto" (some "utf-8")
        [NetResult.ok okResp 3]).err = none ∧
    (post baseClient "p" none none none none "auto" (some "utf-8")
        [NetResult.ok okResp 3]).st.history.length =
      baseClient.history.length +
        (if primingCond baseClient "p" none then 2 else 1) :=
  ⟨by decide,
   C1_history_growth baseClient "p" none none none none "auto" (some "utf-8")
     [NetResult.ok okResp 3] (by decide)⟩

/-- C1 counterexample: with a non-empty string body containing _formname as a
    substring, the condition of the claim (data is a mapping with a _formname
    key) is false, yet the priming GET fires and a completed call appends two
    history entries, because the code tests `"_formname" in data`, which is
    substring containment on a str body. -/
theorem C1_priming_counterexample :
    claimC1Cond histClient "b" (some (PostData.str "_formname=x")) = false ∧
    (post histClient "b" (some (PostData.str "_formname=x")) none none none "auto"
        (some "utf-8") [NetResult.ok okResp 1, NetResult.ok okResp 2]).err = none ∧
    (post histClient "b" (some (PostData.str "_formname=x")) none none none "auto"
        (some "utf-8") [NetResult.ok okResp 1, NetResult.ok okResp 2]).st.history.length =
      histClient.history.length + 2 := by
  refine ⟨by decide, by decide, by decide⟩

/-! ## Claim C2 -/

/-- C2 (amended): re-deriving the cookie map from the set-cookie header is
    comma-splitting followed, per item, by the amended segment rule: the part
    before the first semicolon when the item has one, and the item minus its
    final character when it has none; the segment is split at the first equals
    sign (with the same minus-final-character fallback for the key when no
    equals sign occurs and the whole segment as the value), and both parts are
    trimmed. -/
theorem C2_cookie_rule (headers : PyDict String) :
    parse_headers_in_cookies headers = amendedParse headers := by
  have hfun : parseCookieItem = amendedCookieItem := funext parseCookieItem_eq_amended
  unfold parse_headers_in_cookies amendedParse
  rw [hfun]

/-- C2 counterexample: on the header value a=bc, whose single item has no
    semicolon, the rule of the claim keeps the whole item and yields value bc,
    but the code drops the final character and yields value b. -/
theorem C2_cookie_rule_counterexample :
    parse_headers_in_cookies [("set-cookie", "a=bc")] = [("a", "b")] ∧
    claimC2Parse [("set-cookie", "a=bc")] = [("a", "bc")] ∧
    parse_headers_in_cookies [("set-cookie", "a=bc")] ≠
      claimC2Parse [("set-cookie", "a=bc")] := by
  refine ⟨by decide, by decide, by decide⟩

/-! ## Claim C3 -/

/-- C3 (amended): when the request completes with an HTTP error status and the
    body-decoding step does not itself fail, the call raises the
    application-fault error carrying the web2py_error header value when that
    normalized header is present, and re-raises the HTTP-status error when it
    is absent. -/
theorem C3_error_reclassification (st : WebClientState) (url : String)
    (data : Option PostData) (cookies : Option (PyDict String))
    (headers : Option (PyDict HeaderVal)) (auth : Option Auth) (method : String)
    (charset : Option String) (r : HTTPResponse) (e : Nat) (rest : List NetResult)
    (hnp : primingCond st url data = false)
    (hdec : (optTruthy charset && !(optTruthy (resolveCharset charset r))) = false) :
    (∀ m, dget? (normalizeHeaders r.headers) "web2py_error" = some m →
      (post st url data cookies headers auth method charset
          (NetResult.httpError r e :: rest)).err = some (Err.applicationFault m)) ∧
    (dget? (normalizeHeaders r.headers) "web2py_error" = none →
      (post st url data cookies headers auth method charset
          (NetResult.httpError r e :: rest)).err = some (Err.httpStatus r.code)) := by
  rw [post_eq_of_not_priming _ _ _ _ _ _ _ _ _ hnp]
  constructor
  · intro m hm
    rw [post_main_httpError_err _ _ _ _ _ _ _ _ _ _ _ hdec, hm]
  · intro hm
    rw [post_main_httpError_err _ _ _ _ _ _ _ _ _ _ _ hdec, hm]

/-- C3 witness: a 500 response carrying Web2py_Error: ticket raises the
    application fault with message ticket, not the HTTP-status error. -/
theorem C3_error_reclassification_witness :
    dget? (normalizeHeaders faultResp.headers) "web2py_error" = some "ticket" ∧
    (post baseClient "p" none none none none "auto" (some "utf-8")
        [NetResult.httpError faultResp 1]).err =
      some (Err.applicationFault "ticket") :=
  ⟨by decide,
   (C3_error_reclassification baseClient "p" none none none none "auto"
       (some "utf-8") faultResp 1 [] (by decide) (by decide)).1 "ticket" (by decide)⟩

/-- C3 counterexample: with charset auto and a response declaring no charset,
    the decode step raises before the error reclassification runs, so an HTTP
    error response carrying the marker header raises the decode failure, not
    the application fault the claim promises for every such call. -/
theorem C3_decode_preempts_counterexample :
    dget? (normalizeHeaders faultResp.headers) "web2py_error" = some "ticket" ∧
    (post baseClient "p" none none none none "auto" (some "auto")
        [NetResult.httpError faultResp 1]).err = some Err.decodeError ∧
    (post baseClient "p" none none none none "auto" (some "auto")
        [NetResult.httpError faultResp 1]).err ≠
      some (Err.applicationFault "ticket") := by
  refine ⟨by decide, by decide, by decide⟩

/-! ## Claim C4 -/

/-- C4: on a dict body, when data lacks _formname and forms holds exactly one
    entry, the mapping passed to urlencode carries _formname bound to that
    sole form name; and when data holds a _formname that is a key of forms but
    no _formkey, the mapping carries _formkey bound to the remembered token. -/
theorem C4_form_injection (st : WebClientState) (url : String) (d : PyDict PyVal)
    (cookies : Option (PyDict String)) (headers : Option (PyDict HeaderVal))
    (auth : Option Auth) (method : String) (charset : Option String)
    (net : List NetResult)
    (hnp : primingCond st url (some (PostData.dict d)) = false) :
    (dmem d "_formname" = false → st.forms.length = 1 →
      dget? ((post st url (some (PostData.dict d)) cookies headers auth method charset
          net).dataAfter.getD []) "_formname" =
        some (PyVal.vStr (firstFormName st.forms))) ∧
    (∀ n k, dget? d "_formname" = some (PyVal.vStr n) → dmem d "_formkey" = false →
      dget? st.forms n = some k →
      dget? ((post st url (some (PostData.dict d)) cookies headers auth method charset
          net).dataAfter.getD []) "_formkey" = some (pyOfFormkey k)) := by
  rw [post_eq_of_not_priming _ _ _ _ _ _ _ _ _ hnp, post_main_dataAfter]
  constructor
  · intro h1 h2
    show dget? (injectForm st.forms d) "_formname" =
      some (PyVal.vStr (firstFormName st.forms))
    exact injectForm_formname st.forms d h1 h2
  · intro n k hn hk hf
    show dget? (injectForm st.forms d) "_formkey" = some (pyOfFormkey k)
    exact injectForm_formkey st.forms d n k hn hk hf

/-- C4 witness: on a client that knows exactly the form login, posting a dict
    without _formname sends a body whose mapping binds _formname to login. -/
theorem C4_form_injection_witness :
    primingCond formClient "p" (some (PostData.dict plainData)) = false ∧
    dmem plainData "_formname" = false ∧
    formClient.forms.length = 1 ∧
    dget? ((post formClient "p" (some (PostData.dict plainData)) none none none
        "auto" (some "utf-8") [NetResult.ok okResp 1]).dataAfter.getD [])
      "_formname" = some (PyVal.vStr (firstFormName formClient.forms)) :=
  ⟨by decide, by decide, by decide,
   (C4_form_injection formClient "p" plainData none none none "auto" (some "utf-8")
      [NetResult.ok okResp 1] (by decide)).1 (by decide) (by decide)⟩

/-! ## Claim C5 -/

/-- C5 (amended): after a completed call, when the body was decoded as text,
    forms is reset and repopulated to exactly the matches scraped from that
    body; when the body was not decoded (falsy charset), forms is left
    unchanged from before the call rather than emptied. -/
theorem C5_forms_tracking (st : WebClientState) (url : String) (data : Option PostData)
    (cookies : Option (PyDict String)) (headers : Option (PyDict HeaderVal))
    (auth : Option Auth) (method : String) (charset : Option String)
    (r : HTTPResponse) (e : Nat) (rest : List NetResult)
    (hnp : primingCond st url data = false)
    (hok : (post st url data cookies headers auth method charset
        (NetResult.ok r e :: rest)).err = none) :
    (optTruthy (resolveCharset charset r) = true →
      (post st url data cookies headers auth method charset
          (NetResult.ok r e :: rest)).st.forms = scrapeForms r.body) ∧
    (optTruthy (resolveCharset charset r) = false →
      (post st url data cookies headers auth method charset
          (NetResult.ok r e :: rest)).st.forms = st.forms) := by
  rw [post_eq_of_not_priming _ _ _ _ _ _ _ _ _ hnp] at hok ⊢
  have hdec : (optTruthy charset && !(optTruthy (resolveCharset charset r))) = false := by
    cases hd : (optTruthy charset && !(optTruthy (resolveCharset charset r))) with
    | false => rfl
    | true =>
        rw [(post_main_decode_fail st url data cookies headers auth method charset
          r e rest hd).1] at hok
        exact Option.noConfusion hok
  rw [post_main_ok_eq st url data cookies headers auth method charset r e rest hdec]
  constructor
  · intro hce
    dsimp only
    rw [hce, if_pos rfl]
  · intro hce
    dsimp only
    rw [hce, if_neg (by simp)]

/-- C5 witness: a completed GET whose decoded body holds the register form
    markup leaves forms equal to the scrape of that body. -/
theorem C5_forms_tracking_witness :
    (post baseClient "p" none none none none "auto" (some "utf-8")
        [NetResult.ok formResp 1]).err = none ∧
    optTruthy (resolveCharset (some "utf-8") formResp) = true ∧
    (post baseClient "p" none none none none "auto" (some "utf-8")
        [NetResult.ok formResp 1]).st.forms = scrapeForms formResp.body :=
  ⟨by decide, by decide,
   (C5_forms_tracking baseClient "p" none none none none "auto" (some "utf-8")
      formResp 1 [] (by decide) (by decide)).1 (by decide)⟩

/-- C5 counterexample: a first call scrapes the register form; a second
    completed call with falsy charset leaves forms unchanged and non-empty,
    while the claim demands an empty forms map when the body is not decoded. -/
theorem C5_stale_forms_counterexample :
    (post (post baseClient "p" none none none none "auto" (some "utf-8")
        [NetResult.ok formResp 1]).st "q" none none none none "auto" none
        [NetResult.ok okResp 1]).err = none ∧
    optTruthy (resolveCharset none okResp) = false ∧
    (post (post baseClient "p" none none none none "auto" (some "utf-8")
        [NetResult.ok formResp 1]).st "q" none none none none "auto" none
        [NetResult.ok okResp 1]).st.forms = [("register", some "K1")] ∧
    (post (post baseClient "p" none none none none "auto" (some "utf-8")
        [NetResult.ok formResp 1]).st "q" none none none none "auto" none
        [NetResult.ok okResp 1]).st.forms ≠ [] := by
  refine ⟨by decide, by decide, by decide, by decide⟩

/-! ## Claim C6 -/

/-- C6: after a completed call with the session pattern active, a freshly
    parsed cookie whose name matches the pattern with group nm updates
    sessions[nm] to the cookie value in every case, and the rotation
    diagnostic for nm is printed, never raised, exactly once when a different
    value had been recorded and never otherwise. -/
theorem C6_session_rotation (st : WebClientState) (url : String) (data : Option PostData)
    (cookies : Option (PyDict String)) (headers : Option (PyDict HeaderVal))
    (auth : Option Auth) (method : String) (charset : Option String)
    (r : HTTPResponse) (e : Nat) (rest : List NetResult) (nm v : String)
    (hsr : st.session_regex = true)
    (hnp : primingCond st url data = false)
    (hok : (post st url data cookies headers auth method charset
        (NetResult.ok r e :: rest)).err = none)
    (hmem : ∃ p ∈ (post st url data cookies headers auth method charset
        (NetResult.ok r e :: rest)).st.cookies, sessionMatch p.1 = some nm)
    (hval : ∀ p ∈ (post st url data cookies headers auth method charset
        (NetResult.ok r e :: rest)).st.cookies, sessionMatch p.1 = some nm → p.2 = v) :
    dget? (post st url data cookies headers auth method charset
        (NetResult.ok r e :: rest)).st.sessions nm = some v ∧
    (post st url data cookies headers auth method charset
        (NetResult.ok r e :: rest)).printed.count ("Changed session ID " ++ nm) =
      (if dmem st.sessions nm && (dget? st.sessions nm != some v) then 1 else 0) := by
  rw [post_eq_of_not_priming _ _ _ _ _ _ _ _ _ hnp] at hok hmem hval ⊢
  have hdec : (optTruthy charset && !(optTruthy (resolveCharset charset r))) = false := by
    cases hd : (optTruthy charset && !(optTruthy (resolveCharset charset r))) with
    | false => rfl
    | true =>
        rw [(post_main_decode_fail st url data cookies headers auth method charset
          r e rest hd).1] at hok
        exact Option.noConfusion hok
  rw [post_main_ok_eq st url data cookies headers auth method charset r e rest hdec]
    at hmem hval ⊢
  dsimp only at hmem hval ⊢
  rw [hsr]
  unfold sessionUpdate
  rw [if_pos rfl]
  have hres := sessFold_main nm v
    (parse_headers_in_cookies (normalizeHeaders r.headers)) (st.sessions, [])
    hmem hval
  refine ⟨hres.1, ?_⟩
  rw [hres.2]
  simp

set_option maxRecDepth 8192 in
/-- C6 witness: with sessions recording abc as old, a response setting
    session_id_abc to hello prints the rotation diagnostic once and updates
    sessions to hello. -/
theorem C6_session_rotation_witness :
    sessClient.session_regex = true ∧
    (post sessClient "p" none none none none "auto" (some "utf-8")
        [NetResult.ok sessResp 1]).err = none ∧
    dget? (post sessClient "p" none none none none "auto" (some "utf-8")
        [NetResult.ok sessResp 1]).st.sessions "abc" = some "hello" ∧
    (post sessClient "p" none none none none "auto" (some "utf-8")
        [NetResult.ok sessResp 1]).printed.count ("Changed session ID " ++ "abc") =
      (if dmem sessClient.sessions "abc" &&
          (dget? sessClient.sessions "abc" != some "hello") then 1 else 0) := by
  refine ⟨by decide, by decide, ?_, ?_⟩
  · exact (C6_session_rotation sessClient "p" none none none none "auto"
      (some "utf-8") sessResp 1 [] "abc" "hello" (by decide) (by decide) (by decide)
      (by decide) (by decide)).1
  · exact (C6_session_rotation sessClient "p" none none none none "auto"
      (some "utf-8") sessResp 1 [] "abc" "hello" (by decide) (by decide) (by decide)
      (by decide) (by decide)).2

/-! ## Claim C7 -/

/-- C7: the code bug behind the claim: get accepts an auth argument and drops
    it, so no basic-auth handler is installed, whereas the claimed equivalent
    post call with the same auth installs one; the two outcomes differ. -/
theorem C7_get_drops_auth :
    (get baseClient "p" none none (some sampleAuth) [NetResult.ok okResp 1]).authUsed =
      none ∧
    (post baseClient "p" none none none (some sampleAuth) "GET" (some "utf-8")
        [NetResult.ok okResp 1]).authUsed = some sampleAuth ∧
    get baseClient "p" none none (some sampleAuth) [NetResult.ok okResp 1] ≠
      post baseClient "p" none none none (some sampleAuth) "GET" (some "utf-8")
        [NetResult.ok okResp 1] := by
  refine ⟨by decide, by decide, by decide⟩

/-! ## Claim C8 -/

/-- C8: with charset auto and a response that declares no charset parameter,
    the call fails with the decode-failure error, for a success response as
    well as for an HTTP-error response, instead of decoding with a default. -/
theorem C8_auto_decode_failure (st : WebClientState) (url : String)
    (data : Option PostData) (cookies : Option (PyDict String))
    (headers : Option (PyDict HeaderVal)) (auth : Option Auth) (method : String)
    (r : HTTPResponse) (e : Nat) (rest : List NetResult) (net : List NetResult)
    (hnp : primingCond st url data = false)
    (hcs : r.charsetParam = none)
    (hnet : net = NetResult.ok r e :: rest ∨ net = NetResult.httpError r e :: rest) :
    (post st url data cookies headers auth method (some "auto") net).err =
      some Err.decodeError := by
  have hdec : (optTruthy (some "auto") &&
      !(optTruthy (resolveCharset (some "auto") r))) = true := by
    simp [optTruthy, resolveCharset, hcs]
  rcases hnet with hn | hn <;>
    subst hn <;>
    rw [post_eq_of_not_priming _ _ _ _ _ _ _ _ _ hnp]
  · exact (post_main_decode_fail st url data cookies headers auth method
      (some "auto") r e rest hdec).1
  · exact (post_main_decode_fail st url data cookies headers auth method
      (some "auto") r e rest hdec).2

/-- C8 witness: a 200 response without a declared charset under charset auto
    yields the decode-failure error. -/
theorem C8_auto_decode_failure_witness :
    okResp.charsetParam = none ∧
    (post baseClient "p" none none none none "auto" (some "auto")
        [NetResult.ok okResp 1]).err = some Err.decodeError :=
  ⟨by decide,
   C8_auto_decode_failure baseClient "p" none none none none "auto" okResp 1 []
     [NetResult.ok okResp 1] (by decide) (by decide) (Or.inl rfl)⟩

/-! ## Claim C9 -/

/-- C9: the caller-owned mappings come back mutated: the data dict holds the
    injected _formname and _formkey entries, a non-empty caller headers dict
    holds every default-header key it lacked, and each mapping differs from
    what was passed whenever an injection or merge occurred. -/
theorem C9_caller_dict_mutation (st : WebClientState) (url : String) (d : PyDict PyVal)
    (h : PyDict HeaderVal) (cookies : Option (PyDict String)) (auth : Option Auth)
    (method : String) (charset : Option String) (net : List NetResult)
    (hnp : primingCond st url (some (PostData.dict d)) = false)
    (hne : h ≠ []) :
    (post st url (some (PostData.dict d)) cookies (some h) auth method charset
        net).dataAfter = some (injectForm st.forms d) ∧
    (post st url (some (PostData.dict d)) cookies (some h) auth method charset
        net).headersAfter = some (mergeDefaults st.default_headers h) ∧
    (∀ k, dmem h k = false → dmem st.default_headers k = true →
      mergeDefaults st.default_headers h ≠ h) ∧
    (dmem d "_formname" = false → st.forms.length = 1 →
      injectForm st.forms d ≠ d) := by
  rw [post_eq_of_not_priming _ _ _ _ _ _ _ _ _ hnp]
  refine ⟨?_, ?_, ?_, ?_⟩
  · rw [post_main_dataAfter]
    rfl
  · rw [post_main_headersAfter]
    have hie : h.isEmpty = false := by
      cases h with
      | nil => exact absurd rfl hne
      | cons a t => rfl
    unfold pmHeadersAfter
    dsimp only
    rw [hie, if_neg (by simp)]
  · intro k hk hd he
    have hmm := dmem_mergeDefaults st.default_headers h k
    rw [he, hk, hd] at hmm
    simp at hmm
  · intro h1 h2
    exact injectForm_changes st.forms d h1 h2

/-- C9 witness: a dict body lacking _formname on a client with one known form
    comes back as the injected mapping, and a caller headers dict lacking the
    default keys comes back merged. -/
theorem C9_caller_dict_mutation_witness :
    primingCond formClient "p" (some (PostData.dict plainData)) = false ∧
    ([("x-test", HeaderVal.one "1")] : PyDict HeaderVal) ≠ [] ∧
    (post formClient "p" (some (PostData.dict plainData)) none
        (some [("x-test", HeaderVal.one "1")]) none "auto" (some "utf-8")
        [NetResult.ok okResp 1]).dataAfter =
      some (injectForm formClient.forms plainData) ∧
    (post formClient "p" (some (PostData.dict plainData)) none
        (some [("x-test", HeaderVal.one "1")]) none "auto" (some "utf-8")
        [NetResult.ok okResp 1]).headersAfter =
      some (mergeDefaults formClient.default_headers [("x-test", HeaderVal.one "1")]) := by
  refine ⟨by decide, by decide, ?_, ?_⟩
  · exact (C9_caller_dict_mutation formClient "p" plainData
      [("x-test", HeaderVal.one "1")] none none "auto" (some "utf-8")
      [NetResult.ok okResp 1] (by decide) (by decide)).1
  · exact (C9_caller_dict_mutation formClient "p" plainData
      [("x-test", HeaderVal.one "1")] none none "auto" (some "utf-8")
      [NetResult.ok okResp 1] (by decide) (by decide)).2.1

/-! ## Claim C10 -/

/-- C10: a comma-separated cookie item with no semicolon is sliced as
    item[:-1] because str.find returns -1, so an item of the shape k=v yields
    name k and the value v with its final character dropped. -/
theorem C10_no_semicolon_truncation (k v : String)
    (h1 : hasChar (k ++ "=" ++ v).toList ';' = false)
    (h2 : hasChar k.toList '=' = false)
    (h3 : v ≠ "") :
    parseCookieItem (k ++ "=" ++ v) =
      (pyStrip k, pyStrip (String.mk v.toList.dropLast)) := by
  have heqL : ("=" : String).toList = ['='] := rfl
  have hitem : (k ++ "=" ++ v).toList = (k.toList ++ ['=']) ++ v.toList := by
    rw [toList_append, toList_append, heqL]
  have hvne : v.toList ≠ [] := by
    intro hh
    apply h3
    have hmk := congrArg String.mk hh
    rwa [mk_toList] at hmk
  have hcookie : pySliceTo (k ++ "=" ++ v) (pyFind (k ++ "=" ++ v) ';') =
      String.mk ((k.toList ++ ['=']) ++ v.toList.dropLast) := by
    rw [pySliceTo_find, if_neg (bool_ne_true h1), hitem,
      List.dropLast_append_of_ne_nil _ hvne]
  have hck : (String.mk ((k.toList ++ ['=']) ++ v.toList.dropLast)).toList =
      k.toList ++ '=' :: v.toList.dropLast := by
    show (k.toList ++ ['=']) ++ v.toList.dropLast =
      k.toList ++ '=' :: v.toList.dropLast
    rw [List.append_assoc, List.singleton_append]
  have hall : ∀ x ∈ k.toList, (fun y => !(y == '=')) x = true := by
    intro x hx
    have h2x : (x == '=') = false := by
      cases hxx : (x == '=') with
      | false => rfl
      | true =>
          have hc : hasChar k.toList '=' = true := by
            unfold hasChar
            rw [List.any_eq_true]
            exact ⟨x, hx, hxx⟩
          rw [hc] at h2
          exact Bool.noConfusion h2
    simp [h2x]
  have hhc : hasChar
      (String.mk ((k.toList ++ ['=']) ++ v.toList.dropLast)).toList '=' = true := by
    rw [hck]
    unfold hasChar
    rw [List.any_eq_true]
    exact ⟨'=', by simp, by simp⟩
  have hkey : pySliceTo (String.mk ((k.toList ++ ['=']) ++ v.toList.dropLast))
      (pyFind (String.mk ((k.toList ++ ['=']) ++ v.toList.dropLast)) '=') =
      String.mk k.toList := by
    rw [pySliceTo_find, if_pos hhc]
    congr 1
    rw [hck, takeWhile_append_all _ _ hall]
    simp [List.takeWhile_cons]
  have hval2 : pySliceFrom (String.mk ((k.toList ++ ['=']) ++ v.toList.dropLast))
      (pyFind (String.mk ((k.toList ++ ['=']) ++ v.toList.dropLast)) '=' + 1) =
      String.mk v.toList.dropLast := by
    rw [pySliceFrom_find_succ, if_pos hhc]
    congr 1
    rw [hck, dropWhile_append_all _ _ hall]
    simp [List.dropWhile_cons]
  simp only [parseCookieItem]
  rw [hcookie, hkey, hval2, mk_toList]

/-- C10 witness: the item k=vv parses to name k with value v, the final
    character of vv dropped. -/
theorem C10_no_semicolon_truncation_witness :
    hasChar ("k" ++ "=" ++ "vv").toList ';' = false ∧
    hasChar ("k" : String).toList '=' = false ∧
    ("vv" : String) ≠ "" ∧
    parseCookieItem ("k" ++ "=" ++ "vv") =
      (pyStrip "k", pyStrip (String.mk ("vv" : String).toList.dropLast)) :=
  ⟨by decide, by decide, by decide,
   C10_no_semicolon_truncation "k" "vv" (by decide) (by decide) (by decide)⟩

end Webclient
